import Mathlib

/-!
# The migration runner of the freska command line tool

A shallow embedding of `src/migrate.go` (with `runCommand` and `freskaVersion`
from `src/freska.go`).

Conventions of the embedding.

* A Go `string` is a Lean `String`; a Go `[]string` is a `List String`; a Go
  `error` is an `Option String` (`none` is `nil`).
* A Go `map[string]string` is a function `String → String`: reading a key that
  is absent yields the empty string, as in Go.
* Everything outside the repository (the filesystem glob, the `psql` process,
  the `query` database package) is an oracle over an explicit world state `σ`,
  gathered in the structure `Sys`.  Every theorem quantifies over all oracles.
* `log.Printf` calls write to the console only and never influence control
  flow; they are left out.
* The constant `createDatabaseMigrationName` is declared in a file of the
  repository that is not part of the sources at hand, so it is a parameter
  (`sentinel`) of every definition that uses it.
-/

namespace Freska

/-! ## Go standard library -/

/-- The predicate `os.IsPathSeparator` on Unix. -/
def isPathSeparator (c : Char) : Bool := c == '/'

/-- Search used by `strings.Contains`: is `sub` found at some offset of the
character sequence. -/
def containsAt (sub : List Char) : List Char → Bool
  | [] => sub.isEmpty
  | c :: cs => sub.isPrefixOf (c :: cs) || containsAt sub cs

/-- The Go function `strings.Contains(s, substr)`. -/
def stringsContains (s substr : String) : Bool := containsAt substr.data s.data

/-- The path with its trailing separators removed (first loop of `filepath.Base`). -/
def stripTrailing (p : List Char) : List Char :=
  (p.reverse.dropWhile isPathSeparator).reverse

/-- The part of the path after its last separator (second loop of `filepath.Base`). -/
def lastElement (p : List Char) : List Char :=
  (p.reverse.takeWhile (fun c => !isPathSeparator c)).reverse

/-- The Go function `filepath.Base` on Unix (the volume name is empty there). -/
def Base (path : String) : String :=
  if path.data = [] then "."
  else
    let p := lastElement (stripTrailing path.data)
    if p = [] then "/" else String.mk p

/-- Go's `<` on character sequences: lexicographic, element by element. -/
def lexLess : List Char → List Char → Bool
  | [], [] => false
  | [], _ :: _ => true
  | _ :: _, [] => false
  | a :: as, b :: bs =>
    if a.toNat < b.toNat then true
    else if b.toNat < a.toNat then false
    else lexLess as bs

/-- Go's `<` on strings, the `Less` of `sort.StringSlice`.  Go compares bytes;
on UTF-8 text that is the order of the code points compared here. -/
def stringLess (a b : String) : Bool := lexLess a.data b.data

/-- Insertion of one string into an ascending list. -/
def orderedInsert (a : String) : List String → List String
  | [] => [a]
  | b :: l => if stringLess b a then b :: orderedInsert a l else a :: b :: l

/-- The Go function `sort.Strings`: the list in ascending order.  The result of
sorting strings does not depend on the algorithm, equal strings being
indistinguishable. -/
def sortStrings : List String → List String
  | [] => []
  | a :: l => orderedInsert a (sortStrings l)

/-! ## The external world -/

/-- A configuration, Go's `map[string]string`. -/
abbrev Config := String → String

/-- What `runCommand` returns: the combined output and the error. -/
structure CmdResult where
  output : String
  err : Option String
  deriving DecidableEq, Repr

/-- One call of `query.ExecSQL`: the statement, its arguments, the error returned. -/
structure ExecRecord where
  sql : String
  args : List String
  err : Option String
  deriving DecidableEq, Repr

/-- The collaborators of the runner, as functions of a world state. -/
structure Sys (σ : Type) where
  /-- The call `filepath.Glob(pattern)`. -/
  glob : String → σ → Except String (List String) × σ
  /-- The call `exec.Command(command, args...).CombinedOutput()`. -/
  combinedOutput : String → List String → σ → (String × Option String) × σ
  /-- The call `query.OpenDatabase(options)`. -/
  queryOpenDatabase : List (String × String) → σ → Option String × σ
  /-- The call `query.QuerySQL(sql)`: an error, or the rows, each of which
  `rows.Scan` reads as a string or fails on. -/
  queryQuerySQL : String → σ → Except String (List (Except String String)) × σ
  /-- The call `query.ExecSQL(sql, args...)`: the error returned. -/
  queryExecSQL : String → List String → σ → Option String × σ

/-! ## src/freska.go -/

/-- The version of this tool. -/
def freskaVersion : String := "1.5.4"

/-- The function `runCommand`: runs a command and returns output and error. -/
def runCommand {σ : Type} (sys : Sys σ) (command : String) (args : List String) (w : σ) :
    CmdResult × σ :=
  match sys.combinedOutput command args w with
  | ((output, some err), w1) => (⟨output, some err⟩, w1)
  | ((output, none), w1) => (⟨output, none⟩, w1)

/-! ## src/migrate.go -/

/-- The function `contains`: whether an array of strings contains a string. -/
def contains (s : String) : List String → Bool
  | [] => false
  | k :: a => if s = k then true else contains s a

/-- The function `openDatabase`: opens the database named in the config map. -/
def openDatabase {σ : Type} (sys : Sys σ) (config : Config) (w : σ) : Option String × σ :=
  let options := [("adapter", config "db_adapter"), ("user", config "db_user"),
    ("password", config "db_pass"), ("db", config "db")]
  sys.queryOpenDatabase options w

/-- The statement `readMetadata` sends. -/
def selectSQL : String := "select migration_version from freska_metadata order by id desc;"

/-- The row loop of `readMetadata`: a row that fails to scan returns what was
read so far. -/
def scanRows : List (Except String String) → List String → List String
  | [], migrations => migrations
  | Except.error _ :: _, migrations => migrations
  | Except.ok migration :: rows, migrations => scanRows rows (migrations ++ [migration])

/-- The function `readMetadata`: reads the freska_metadata table. -/
def readMetadata {σ : Type} (sys : Sys σ) (w : σ) : List String × σ :=
  match sys.queryQuerySQL selectSQL w with
  | (Except.error _, w1) => ([], w1)
  | (Except.ok rows, w1) => (scanRows rows [], w1)

/-- The statement `writeMetadata` sends. -/
def insertSQL : String :=
  "Insert into freska_metadata(updated_at,freska_version,migration_version,status) VALUES(NOW(),$1,$2,100);"

/-- The function `writeMetadata`: one insert per migration; an error is logged
and the loop goes on.  The result lists the calls made. -/
def writeMetadata {σ : Type} (sys : Sys σ) : List String → σ → List ExecRecord × σ
  | [], w => ([], w)
  | m :: migrations, w =>
    match sys.queryExecSQL insertSQL [freskaVersion, m] w with
    | (err, w1) =>
      match writeMetadata sys migrations w1 with
      | (calls, w2) => (⟨insertSQL, [freskaVersion, m], err⟩ :: calls, w2)

/-- The arguments handed to psql for a file (lines 60 to 64 of migrate.go). -/
def psqlArgs (config : Config) (sentinel : String) (file : String) : List String :=
  if stringsContains (Base file) sentinel then ["-f", file]
  else ["-d", config "db", "-f", file]

/-- The test `err != nil || strings.Contains(string(result), "ERROR")`. -/
def isFailure (r : CmdResult) : Bool := r.err.isSome || stringsContains r.output "ERROR"

/-- The variables of the loop of `migrateDB`, with the psql calls made so far
and whether the loop has hit `break`. -/
structure LoopState (σ : Type) where
  executed : List (List String)
  completed : List String
  halted : Bool
  world : σ

/-- The body of the loop of `migrateDB` for one file. -/
def migrateBody {σ : Type} (sys : Sys σ) (config : Config) (sentinel : String)
    (migrations : List String) (file : String) (st : LoopState σ) : LoopState σ :=
  let filename := Base file
  if !contains filename migrations then
    let args := psqlArgs config sentinel file
    match runCommand sys "psql" args st.world with
    | (result, w1) =>
      if isFailure result then
        { executed := st.executed ++ [args], completed := st.completed, halted := true, world := w1 }
      else
        { executed := st.executed ++ [args], completed := st.completed ++ [filename],
          halted := false, world := w1 }
  else st

/-- The loop of `migrateDB` over the files, left at the first `break`. -/
def migrateLoop {σ : Type} (sys : Sys σ) (config : Config) (sentinel : String)
    (migrations : List String) : List String → LoopState σ → LoopState σ
  | [], st => st
  | file :: files, st =>
    let st1 := migrateBody sys config sentinel migrations file st
    if st1.halted then st1 else migrateLoop sys config sentinel migrations files st1

/-- What one run did: the sorted files, the result of opening the database, the
applied list, the psql calls, the completed names, the argument of
`writeMetadata` when it was called, the inserts made, and the world left. -/
structure Run (σ : Type) where
  globErr : Option String
  files : List String
  openErr : Option String
  migrations : List String
  executed : List (List String)
  halted : Bool
  completed : List String
  written : Option (List String)
  inserts : List ExecRecord
  world : σ

/-- Lines 54 to 89 of `migrateDB`: the loop over the sorted files, then the
recording of the completed names. -/
def migrateFiles {σ : Type} (sys : Sys σ) (config : Config) (sentinel : String)
    (files migrations : List String) (openErr : Option String) (w : σ) : Run σ :=
  let st := migrateLoop sys config sentinel migrations files ⟨[], [], false, w⟩
  if st.completed.length > 0 then
    match writeMetadata sys st.completed st.world with
    | (calls, w1) =>
      { globErr := none, files := files, openErr := openErr, migrations := migrations,
        executed := st.executed, halted := st.halted, completed := st.completed,
        written := some st.completed, inserts := calls, world := w1 }
  else
    { globErr := none, files := files, openErr := openErr, migrations := migrations,
      executed := st.executed, halted := st.halted, completed := st.completed,
      written := none, inserts := [], world := st.world }

/-- The function `migrateDB`: runs every migration file not yet recorded. -/
def migrateDB {σ : Type} (sys : Sys σ) (sentinel : String) (config : Config) (w : σ) : Run σ :=
  match sys.glob "./db/migrate/*.sql" w with
  | (Except.error e, w1) =>
    { globErr := some e, files := [], openErr := none, migrations := [], executed := [],
      halted := false, completed := [], written := none, inserts := [], world := w1 }
  | (Except.ok files, w1) =>
    let files := sortStrings files
    match openDatabase sys config w1 with
    | (some e, w2) => migrateFiles sys config sentinel files [] (some e) w2
    | (none, w2) =>
      match readMetadata sys w2 with
      | (migrations, w3) => migrateFiles sys config sentinel files migrations none w3

/-! ## The ledger table -/

/-- One row of the freska_metadata table; `updated_at` is left out. -/
structure LedgerRow where
  freska_version : String
  migration_version : String
  status : Nat
  deriving DecidableEq, Repr

/-- The freska_metadata table after one `ExecSQL` call of `writeMetadata`: a
call that returns no error has inserted its row at the end (the next id), a call
that returns an error has inserted nothing. -/
def ledgerExec (rows : List LedgerRow) (call : ExecRecord) : List LedgerRow :=
  match call.err, call.args with
  | none, [version, migration] => rows ++ [⟨version, migration, 100⟩]
  | _, _ => rows

/-- The table after a sequence of calls. -/
def ledgerAfter (rows : List LedgerRow) (calls : List ExecRecord) : List LedgerRow :=
  calls.foldl ledgerExec rows

/-- What `selectSQL` yields on a table held in ascending order of id: the
migration versions, latest id first. -/
def ledgerSelect (rows : List LedgerRow) : List String :=
  rows.reverse.map (fun r => r.migration_version)

/-! ## Notions used to state the properties -/

/-- The pending files: those whose base name is not in the applied list, in order. -/
def pending (files migrations : List String) : List String :=
  files.filter (fun f => !contains (Base f) migrations)

/-- The outcome of psql for each file of a list when the files are executed one
after another from a world state. -/
def psqlOutcomes {σ : Type} (sys : Sys σ) (config : Config) (sentinel : String) :
    List String → σ → List CmdResult
  | [], _ => []
  | f :: fs, w =>
    match runCommand sys "psql" (psqlArgs config sentinel f) w with
    | (result, w1) => result :: psqlOutcomes sys config sentinel fs w1

/-- The state in which the loop of `migrateDB` ends. -/
def loopEnd {σ : Type} (sys : Sys σ) (config : Config) (sentinel : String)
    (files migrations : List String) (w : σ) : LoopState σ :=
  migrateLoop sys config sentinel migrations files ⟨[], [], false, w⟩

/-! ## Scripted worlds, for evaluation -/

/-- A world without state: the glob result, the result of opening the database,
the result of the ledger query, the outcome of psql by argument list and the
error of an insert by migration name are all given. -/
def scripted (listing : Except String (List String)) (openErr : Option String)
    (rows : Except String (List (Except String String)))
    (psql : List String → String × Option String)
    (insertErr : List String → Option String) : Sys Unit where
  glob := fun _ w => (listing, w)
  combinedOutput := fun _ args w => (psql args, w)
  queryOpenDatabase := fun _ w => (openErr, w)
  queryQuerySQL := fun _ w => (rows, w)
  queryExecSQL := fun _ args w => (insertErr args, w)

/-- A development configuration. -/
def devConfig : Config := fun k => if k = "db" then "freska_development" else ""

/-- Files A, B, C of the halt-on-failure scenario. -/
def filesABC : List String :=
  ["db/migrate/001_a.sql", "db/migrate/002_b.sql", "db/migrate/003_c.sql"]

/-- A psql whose output for the file B reports an error in band, with exit status zero. -/
def psqlFailsOnB (args : List String) : String × Option String :=
  if contains "db/migrate/002_b.sql" args then
    ("psql:db/migrate/002_b.sql:1: ERROR:  relation users already exists", none)
  else ("CREATE TABLE", none)

/-- The world of the halt-on-failure scenario. -/
def sysABC : Sys Unit :=
  scripted (Except.ok filesABC) none (Except.ok []) psqlFailsOnB (fun _ => none)

/-- A world with state: the directory listing, whether the database can be
opened, and the freska_metadata table. -/
structure World where
  listing : List String
  dbOpens : Bool
  ledger : List LedgerRow
  deriving DecidableEq, Repr

/-- A healthy world over `World`: the glob lists the directory, every psql run
succeeds, the ledger query returns the table, and every insert succeeds and
appends its row. -/
def healthy : Sys World where
  glob := fun _ w => (Except.ok w.listing, w)
  combinedOutput := fun _ _ w => (("", none), w)
  queryOpenDatabase := fun _ w =>
    (if w.dbOpens then none else some "database does not exist", w)
  queryQuerySQL := fun _ w => (Except.ok ((ledgerSelect w.ledger).map Except.ok), w)
  queryExecSQL := fun sql args w =>
    (none, { listing := w.listing, dbOpens := w.dbOpens,
             ledger := ledgerExec w.ledger ⟨sql, args, none⟩ })

/-- A project with two migrations, listed out of order, and an empty ledger. -/
def worldFresh : World :=
  { listing := ["db/migrate/002_b.sql", "db/migrate/001_a.sql"], dbOpens := true, ledger := [] }

/-- A project whose two migrations are both recorded in the ledger. -/
def worldDone : World :=
  { listing := ["db/migrate/002_b.sql", "db/migrate/001_a.sql"], dbOpens := true,
    ledger := [⟨"1.5.4", "001_a.sql", 100⟩, ⟨"1.5.4", "002_b.sql", 100⟩] }

/-- A new project: no database yet, a creation migration and a second migration
whose name also contains the creation sentinel. -/
def sysTwoCreations : Sys Unit :=
  scripted
    (Except.ok ["db/migrate/002_Create-Database-Extensions.sql",
      "db/migrate/001_Create-Database.sql"])
    (some "pq: database does not exist") (Except.ok [])
    (fun _ => ("", none)) (fun _ => none)

/-- A new project: no database yet, a creation migration and a table migration. -/
def sysBootstrap : Sys Unit :=
  scripted
    (Except.ok ["db/migrate/002_Create-Tables.sql", "db/migrate/001_Create-Database.sql"])
    (some "pq: database does not exist") (Except.ok [])
    (fun _ => ("", none)) (fun _ => none)

/-- The world `healthy` but with every insert into the ledger failing: the
call returns an error and the table is left as it was. -/
def insertsFail : Sys World where
  glob := fun _ w => (Except.ok w.listing, w)
  combinedOutput := fun _ _ w => (("", none), w)
  queryOpenDatabase := fun _ w =>
    (if w.dbOpens then none else some "database does not exist", w)
  queryQuerySQL := fun _ w => (Except.ok ((ledgerSelect w.ledger).map Except.ok), w)
  queryExecSQL := fun _ _ w => (some "pq: relation freska_metadata does not exist", w)

/-- The three migration files of the bootstrap scenario. -/
def bootstrapFiles : List String :=
  ["db/migrate/001_create_db.sql", "db/migrate/002_create_users.sql",
   "db/migrate/003_add_email.sql"]

/-- The bootstrap scenario before the first run: three files, no database. -/
def worldBootstrap : World :=
  { listing := bootstrapFiles, dbOpens := false, ledger := [] }

/-- The bootstrap scenario before the second run: a fourth file was added, the
database opens, the ledger is the given table. -/
def worldSecond (ledger : List LedgerRow) : World :=
  { listing := bootstrapFiles ++ ["db/migrate/004_add_index.sql"], dbOpens := true,
    ledger := ledger }

/-- The bootstrap scenario before a second run that cannot reach the database:
a fourth file was added, the ledger is the given table, opening fails. -/
def worldSecondDown (ledger : List LedgerRow) : World :=
  { listing := bootstrapFiles ++ ["db/migrate/004_add_index.sql"], dbOpens := false,
    ledger := ledger }

/-- A project with two migrations whose ledger read fails while scanning the
second row, after the row of 001_a.sql has been read. -/
def sysScanFails : Sys Unit :=
  scripted (Except.ok ["db/migrate/001_a.sql", "db/migrate/002_b.sql"]) none
    (Except.ok [Except.ok "001_a.sql", Except.error "sql: Scan error on column index 0"])
    (fun _ => ("", none)) (fun _ => none)

/-- A project in which only the later of two migrations is recorded as run. -/
def worldGap : World :=
  { listing := ["db/migrate/001_a.sql", "db/migrate/002_b.sql"], dbOpens := true,
    ledger := [⟨"1.5.4", "002_b.sql", 100⟩] }

/-- A world in which psql cannot reach the server: it exits with a nonzero
status and its output does not contain "ERROR". -/
def sysPsqlExits : Sys Unit :=
  scripted (Except.ok filesABC) none (Except.ok [])
    (fun _ => ("psql: could not connect to server: Connection refused", some "exit status 2"))
    (fun _ => none)

/-- The world left by a sequence of inserts of `writeMetadata`: each insert is
made in the world the insert before it left, whatever error that one returned. -/
def worldAfterInserts {σ : Type} (sys : Sys σ) (names : List String) (w : σ) : σ :=
  names.foldl (fun w1 m => (sys.queryExecSQL insertSQL [freskaVersion, m] w1).2) w

/-- The world `healthy` but with the insert for 001_a.sql failing: that call
returns an error and leaves the table as it was, every other insert succeeds
and appends its row. -/
def firstInsertFails : Sys World where
  glob := fun _ w => (Except.ok w.listing, w)
  combinedOutput := fun _ _ w => (("", none), w)
  queryOpenDatabase := fun _ w =>
    (if w.dbOpens then none else some "database does not exist", w)
  queryQuerySQL := fun _ w => (Except.ok ((ledgerSelect w.ledger).map Except.ok), w)
  queryExecSQL := fun sql args w =>
    if contains "001_a.sql" args then (some "pq: deadlock detected", w)
    else (none, { listing := w.listing, dbOpens := w.dbOpens,
                  ledger := ledgerExec w.ledger ⟨sql, args, none⟩ })

/-! ## Lemmas -/

theorem contains_iff (s : String) (a : List String) : contains s a = true ↔ s ∈ a := by
  induction a with
  | nil => simp [contains]
  | cons k a ih =>
    by_cases h : s = k
    · simp [contains, h]
    · simp [contains, h, ih]

theorem contains_eq_false_iff (s : String) (a : List String) : contains s a = false ↔ s ∉ a := by
  rw [← contains_iff]; simp

theorem containsAt_iff (sub l : List Char) : containsAt sub l = true ↔ sub <:+: l := by
  induction l with
  | nil => simp [containsAt, List.isEmpty_iff]
  | cons c cs ih =>
    rw [containsAt, Bool.or_eq_true, ih, List.infix_cons_iff, List.isPrefixOf_iff_prefix]

theorem stringsContains_iff (s substr : String) :
    stringsContains s substr = true ↔ substr.data <:+: s.data :=
  containsAt_iff _ _

theorem isFailure_iff (r : CmdResult) :
    isFailure r = true ↔ (r.err ≠ none ∨ "ERROR".data <:+: r.output.data) := by
  unfold isFailure
  rw [Bool.or_eq_true, stringsContains_iff, Option.isSome_iff_ne_none]

section Loop
variable {σ : Type} (sys : Sys σ) (config : Config) (sentinel : String)

theorem migrateBody_applied (migrations : List String) (file : String) (st : LoopState σ)
    (h : contains (Base file) migrations = true) :
    migrateBody sys config sentinel migrations file st = st := by
  simp [migrateBody, h]

theorem migrateLoop_halt (migrations files : List String) (st : LoopState σ) (k : Nat)
    (hst : st.halted = false)
    (hk : k ≤ (pending files migrations).length)
    (hok : ∀ i o, i < k →
      (psqlOutcomes sys config sentinel (pending files migrations) st.world)[i]? = some o →
      isFailure o = false)
    (hfail : ∀ o,
      (psqlOutcomes sys config sentinel (pending files migrations) st.world)[k]? = some o →
      isFailure o = true) :
    (migrateLoop sys config sentinel migrations files st).executed =
        st.executed ++ ((pending files migrations).take (k + 1)).map (psqlArgs config sentinel) ∧
    (migrateLoop sys config sentinel migrations files st).completed =
        st.completed ++ ((pending files migrations).take k).map Base ∧
    (migrateLoop sys config sentinel migrations files st).halted =
        decide (k < (pending files migrations).length) := by
  induction files generalizing st k with
  | nil =>
    simp [pending] at hk
    subst hk
    simp [migrateLoop, pending, hst]
  | cons file files ih =>
    by_cases hc : contains (Base file) migrations = true
    · have hp : pending (file :: files) migrations = pending files migrations := by
        simp [pending, hc]
      rw [hp] at hk hok hfail ⊢
      simp only [migrateLoop, migrateBody_applied sys config sentinel migrations file st hc, hst]
      exact ih st k hst hk hok hfail
    · have hc2 : contains (Base file) migrations = false := by simpa using hc
      have hp : pending (file :: files) migrations = file :: pending files migrations := by
        simp [pending, hc2]
      rw [hp] at hk hok hfail ⊢
      rcases hrun : runCommand sys "psql" (psqlArgs config sentinel file) st.world with ⟨result, w1⟩
      simp only [psqlOutcomes, hrun] at hok hfail
      cases k with
      | zero =>
        have hf : isFailure result = true := hfail result (by simp)
        simp [migrateLoop, migrateBody, hc2, hrun, hf]
      | succ k =>
        have hf : isFailure result = false := hok 0 result (Nat.succ_pos k) (by simp)
        have hk2 : k ≤ (pending files migrations).length := by simpa using hk
        have := ih ⟨st.executed ++ [psqlArgs config sentinel file], st.completed ++ [Base file],
          false, w1⟩ k rfl hk2
          (fun i o hi ho => hok (i + 1) o (Nat.succ_lt_succ hi) (by simpa using ho))
          (fun o ho => hfail o (by simpa using ho))
        simp [migrateLoop, migrateBody, hc2, hrun, hf]
        simpa using this

end Loop

section Recording
variable {σ : Type} (sys : Sys σ) (config : Config) (sentinel : String)

theorem migrateLoop_nothing (migrations files : List String) (st : LoopState σ)
    (h : ∀ f ∈ files, contains (Base f) migrations = true) :
    migrateLoop sys config sentinel migrations files st = st := by
  induction files with
  | nil => rfl
  | cons file files ih =>
    have hb := migrateBody_applied sys config sentinel migrations file st
      (h file (List.mem_cons_self _ _))
    simp only [migrateLoop, hb]
    split
    · rfl
    · exact ih (fun f hf => h f (List.mem_cons_of_mem _ hf))

theorem migrateLoop_complete (migrations files : List String) (st : LoopState σ)
    (hst : st.halted = false)
    (h : (migrateLoop sys config sentinel migrations files st).halted = false) :
    (migrateLoop sys config sentinel migrations files st).executed =
        st.executed ++ (pending files migrations).map (psqlArgs config sentinel) ∧
    (migrateLoop sys config sentinel migrations files st).completed =
        st.completed ++ (pending files migrations).map Base := by
  induction files generalizing st with
  | nil => simp [migrateLoop, pending]
  | cons file files ih =>
    by_cases hc : contains (Base file) migrations = true
    · have hp : pending (file :: files) migrations = pending files migrations := by
        simp [pending, hc]
      rw [hp]
      simp only [migrateLoop, migrateBody_applied sys config sentinel migrations file st hc,
        hst] at h ⊢
      exact ih st hst h
    · have hc2 : contains (Base file) migrations = false := by simpa using hc
      have hp : pending (file :: files) migrations = file :: pending files migrations := by
        simp [pending, hc2]
      rw [hp]
      rcases hrun : runCommand sys "psql" (psqlArgs config sentinel file) st.world with ⟨result, w1⟩
      by_cases hf : isFailure result = true
      · simp [migrateLoop, migrateBody, hc2, hrun, hf] at h
      · have hf2 : isFailure result = false := by simpa using hf
        simp only [migrateLoop, migrateBody, hc2, hrun, hf2] at h ⊢
        simp at h ⊢
        have := ih ⟨st.executed ++ [psqlArgs config sentinel file], st.completed ++ [Base file],
          false, w1⟩ rfl h
        simpa using this

theorem writeMetadata_calls (names : List String) (w : σ) :
    (writeMetadata sys names w).1.map (fun c => (c.sql, c.args)) =
      names.map (fun m => (insertSQL, [freskaVersion, m])) := by
  induction names generalizing w with
  | nil => rfl
  | cons m names ih =>
    simp only [writeMetadata, List.map_cons]
    rw [ih]

theorem ledgerAfter_writeMetadata (rows : List LedgerRow) (names : List String) (w : σ)
    (h : ∀ c ∈ (writeMetadata sys names w).1, c.err = none) :
    ledgerAfter rows (writeMetadata sys names w).1 =
      rows ++ names.map (fun m => (⟨freskaVersion, m, 100⟩ : LedgerRow)) := by
  induction names generalizing w rows with
  | nil => simp [writeMetadata, ledgerAfter]
  | cons m names ih =>
    simp only [writeMetadata] at h ⊢
    have h0 := h _ (List.mem_cons_self _ _)
    simp only at h0
    have := ih (rows ++ [⟨freskaVersion, m, 100⟩]) (sys.queryExecSQL insertSQL [freskaVersion, m] w).2
      (fun c hc => h c (List.mem_cons_of_mem _ hc))
    simp only [ledgerAfter, List.foldl_cons, ledgerExec, h0] at this ⊢
    rw [this]
    simp

end Recording

section Files
variable {σ : Type} (sys : Sys σ) (config : Config) (sentinel : String)

theorem migrateFiles_loop (files migrations : List String) (oe : Option String) (w : σ) :
    (migrateFiles sys config sentinel files migrations oe w).executed =
        (loopEnd sys config sentinel files migrations w).executed ∧
    (migrateFiles sys config sentinel files migrations oe w).completed =
        (loopEnd sys config sentinel files migrations w).completed ∧
    (migrateFiles sys config sentinel files migrations oe w).halted =
        (loopEnd sys config sentinel files migrations w).halted := by
  simp only [migrateFiles, loopEnd]
  generalize migrateLoop sys config sentinel migrations files ⟨[], [], false, w⟩ = st
  by_cases h : st.completed.length > 0 <;> simp [h]

theorem migrateFiles_args (files migrations : List String) (oe : Option String) (w : σ) :
    (migrateFiles sys config sentinel files migrations oe w).files = files ∧
    (migrateFiles sys config sentinel files migrations oe w).migrations = migrations ∧
    (migrateFiles sys config sentinel files migrations oe w).openErr = oe ∧
    (migrateFiles sys config sentinel files migrations oe w).globErr = none := by
  simp only [migrateFiles]
  generalize migrateLoop sys config sentinel migrations files ⟨[], [], false, w⟩ = st
  by_cases h : st.completed.length > 0 <;> simp [h]

theorem migrateFiles_written (files migrations : List String) (oe : Option String) (w : σ) :
    (migrateFiles sys config sentinel files migrations oe w).written =
      (if (migrateFiles sys config sentinel files migrations oe w).completed = [] then none
       else some (migrateFiles sys config sentinel files migrations oe w).completed) := by
  simp only [migrateFiles]
  generalize migrateLoop sys config sentinel migrations files ⟨[], [], false, w⟩ = st
  by_cases h : st.completed.length > 0
  · have h2 : st.completed ≠ [] := by
      intro h0; rw [h0] at h; simp at h
    simp [h, h2]
  · have h2 : st.completed = [] := by simpa using h
    simp [h2]

theorem migrateFiles_inserts (files migrations : List String) (oe : Option String) (w : σ) :
    (migrateFiles sys config sentinel files migrations oe w).inserts =
      (writeMetadata sys (loopEnd sys config sentinel files migrations w).completed
        (loopEnd sys config sentinel files migrations w).world).1 := by
  simp only [migrateFiles, loopEnd]
  generalize migrateLoop sys config sentinel migrations files ⟨[], [], false, w⟩ = st
  by_cases h : st.completed.length > 0
  · simp [h]
  · have h2 : st.completed = [] := by simpa using h
    simp [h2, writeMetadata]

theorem migrateDB_cases (w : σ) :
    ((migrateDB sys sentinel config w).globErr ≠ none ∧
      (migrateDB sys sentinel config w).files = [] ∧
      (migrateDB sys sentinel config w).migrations = [] ∧
      (migrateDB sys sentinel config w).executed = [] ∧
      (migrateDB sys sentinel config w).completed = [] ∧
      (migrateDB sys sentinel config w).written = none ∧
      (migrateDB sys sentinel config w).inserts = []) ∨
    ∃ w0, migrateDB sys sentinel config w =
      migrateFiles sys config sentinel (migrateDB sys sentinel config w).files
        (migrateDB sys sentinel config w).migrations (migrateDB sys sentinel config w).openErr w0 := by
  unfold migrateDB
  rcases hg : sys.glob "./db/migrate/*.sql" w with ⟨g, w1⟩
  cases g with
  | error e => left; simp
  | ok listing =>
    right
    simp only
    rcases ho : openDatabase sys config w1 with ⟨oe, w2⟩
    cases oe with
    | some e =>
      refine ⟨w2, ?_⟩
      simp only [migrateFiles_args]
    | none =>
      simp only
      rcases hr : readMetadata sys w2 with ⟨migs, w3⟩
      refine ⟨w3, ?_⟩
      simp only [migrateFiles_args]

theorem migrateDB_files (w : σ) (listing : List String)
    (hglob : (sys.glob "./db/migrate/*.sql" w).1 = Except.ok listing) :
    (migrateDB sys sentinel config w).files = sortStrings listing := by
  unfold migrateDB
  rcases hg : sys.glob "./db/migrate/*.sql" w with ⟨g, w1⟩
  rw [hg] at hglob
  simp only at hglob
  subst hglob
  simp only
  rcases ho : openDatabase sys config w1 with ⟨oe, w2⟩
  cases oe with
  | some e => simp only [migrateFiles_args]
  | none =>
    simp only
    rcases hr : readMetadata sys w2 with ⟨migs, w3⟩
    simp only [migrateFiles_args]

theorem migrateDB_open_failed (w : σ) (e : String)
    (h : (migrateDB sys sentinel config w).openErr = some e) :
    (migrateDB sys sentinel config w).migrations = [] := by
  unfold migrateDB at h ⊢
  rcases hg : sys.glob "./db/migrate/*.sql" w with ⟨g, w1⟩
  rw [hg] at h
  cases g with
  | error e => simp
  | ok listing =>
    simp only at h ⊢
    rcases ho : openDatabase sys config w1 with ⟨oe, w2⟩
    rw [ho] at h
    cases oe with
    | some e => simp only [migrateFiles_args]
    | none =>
      simp only at h
      rcases hr : readMetadata sys w2 with ⟨migs, w3⟩
      rw [hr] at h
      simp only [migrateFiles_args] at h
      exact absurd h (by simp)

end Files

/-! ### Order and sorting -/

theorem char_eq_of_toNat (a b : Char) (h1 : ¬ a.toNat < b.toNat) (h2 : ¬ b.toNat < a.toNat) :
    a = b := by
  have h : a.toNat = b.toNat := by omega
  apply Char.ext
  apply UInt32.ext
  exact h

theorem lexLess_irrefl (a : List Char) : lexLess a a = false := by
  induction a with
  | nil => rfl
  | cons c cs ih => simp [lexLess, ih]

theorem lexLess_asymm (a b : List Char) (h : lexLess a b = true) : lexLess b a = false := by
  induction a generalizing b with
  | nil => cases b <;> simp [lexLess] at h ⊢
  | cons c cs ih =>
    cases b with
    | nil => simp [lexLess] at h
    | cons d ds =>
      simp only [lexLess] at h ⊢
      by_cases h1 : c.toNat < d.toNat
      · have h2 : ¬ d.toNat < c.toNat := by omega
        simp [h1, h2]
      · by_cases h2 : d.toNat < c.toNat
        · simp [h1, h2] at h
        · simp only [h1, h2, if_false] at h ⊢
          exact ih ds h

theorem lexLess_total (a b : List Char) (h1 : lexLess a b = false) (h2 : lexLess b a = false) :
    a = b := by
  induction a generalizing b with
  | nil => cases b <;> simp [lexLess] at h1 ⊢
  | cons c cs ih =>
    cases b with
    | nil => simp [lexLess] at h2
    | cons d ds =>
      simp only [lexLess] at h1 h2
      by_cases h3 : c.toNat < d.toNat
      · simp [h3] at h1
      · by_cases h4 : d.toNat < c.toNat
        · simp [h4] at h2
        · simp only [h3, h4, if_false] at h1 h2
          rw [char_eq_of_toNat c d h3 h4, ih ds h1 h2]

theorem lexLess_trans (a b c : List Char) (h1 : lexLess a b = true) (h2 : lexLess b c = true) :
    lexLess a c = true := by
  induction a generalizing b c with
  | nil =>
    cases b with
    | nil => simp [lexLess] at h1
    | cons d ds => cases c <;> simp [lexLess] at h2 ⊢
  | cons x xs ih =>
    cases b with
    | nil => simp [lexLess] at h1
    | cons y ys =>
      cases c with
      | nil => simp [lexLess] at h2
      | cons z zs =>
        simp only [lexLess] at h1 h2 ⊢
        by_cases hxy : x.toNat < y.toNat
        · by_cases hyz : y.toNat < z.toNat
          · have : x.toNat < z.toNat := by omega
            simp [this]
          · by_cases hzy : z.toNat < y.toNat
            · simp [hyz, hzy] at h2
            · have : x.toNat < z.toNat := by omega
              simp [this]
        · by_cases hyx : y.toNat < x.toNat
          · simp [hxy, hyx] at h1
          · simp only [hxy, hyx, if_false] at h1
            by_cases hyz : y.toNat < z.toNat
            · have : x.toNat < z.toNat := by omega
              simp [this]
            · by_cases hzy : z.toNat < y.toNat
              · simp [hyz, hzy] at h2
              · simp only [hyz, hzy, if_false] at h2
                have e1 : ¬ x.toNat < z.toNat := by omega
                have e2 : ¬ z.toNat < x.toNat := by omega
                simp only [e1, e2, if_false]
                exact ih ys zs h1 h2

theorem lexLess_append_left (p a b : List Char) : lexLess (p ++ a) (p ++ b) = lexLess a b := by
  induction p with
  | nil => rfl
  | cons c cs ih => simp [lexLess, ih]

/-- The order `a ≤ b` of Go strings, as `!(b < a)`, is transitive. -/
theorem stringLess_le_trans (a b c : String) (h1 : stringLess b a = false)
    (h2 : stringLess c b = false) : stringLess c a = false := by
  unfold stringLess at *
  by_contra h
  have hca : lexLess c.data a.data = true := by simpa using h
  by_cases hab : lexLess a.data b.data = true
  · have := lexLess_trans _ _ _ hca hab
    rw [this] at h2
    exact absurd h2 (by simp)
  · have hab2 : lexLess a.data b.data = false := by simpa using hab
    have e := lexLess_total _ _ hab2 h1
    rw [e] at hca
    rw [hca] at h2
    exact absurd h2 (by simp)

theorem orderedInsert_perm (a : String) (l : List String) :
    (orderedInsert a l).Perm (a :: l) := by
  induction l with
  | nil => exact List.Perm.refl _
  | cons b l ih =>
    simp only [orderedInsert]
    split
    · exact (List.Perm.cons b ih).trans (List.Perm.swap a b l)
    · exact List.Perm.refl _

theorem sortStrings_perm (l : List String) : (sortStrings l).Perm l := by
  induction l with
  | nil => exact List.Perm.refl _
  | cons a l ih =>
    simp only [sortStrings]
    exact (orderedInsert_perm a _).trans (List.Perm.cons a ih)

theorem orderedInsert_sorted (a : String) (l : List String)
    (h : l.Pairwise (fun x y => stringLess y x = false)) :
    (orderedInsert a l).Pairwise (fun x y => stringLess y x = false) := by
  induction l with
  | nil => simp [orderedInsert]
  | cons b l ih =>
    rw [List.pairwise_cons] at h
    simp only [orderedInsert]
    by_cases hba : stringLess b a = true
    · simp only [hba, if_true, List.pairwise_cons]
      refine ⟨?_, ih h.2⟩
      intro y hy
      rcases (List.mem_cons.mp ((orderedInsert_perm a l).subset hy)) with rfl | hy
      · exact lexLess_asymm _ _ hba
      · exact h.1 y hy
    · have hba2 : stringLess b a = false := by simpa using hba
      rw [hba2, if_neg (by simp), List.pairwise_cons, List.pairwise_cons]
      refine ⟨?_, h.1, h.2⟩
      intro y hy
      rcases List.mem_cons.mp hy with rfl | hy
      · exact hba2
      · exact stringLess_le_trans a b y hba2 (h.1 y hy)

theorem sortStrings_sorted (l : List String) :
    (sortStrings l).Pairwise (fun x y => stringLess y x = false) := by
  induction l with
  | nil => simp [sortStrings]
  | cons a l ih => exact orderedInsert_sorted a _ ih

theorem sorted_perm_unique (l1 l2 : List String) (hp : l1.Perm l2)
    (h1 : l1.Pairwise (fun x y => stringLess y x = false))
    (h2 : l2.Pairwise (fun x y => stringLess y x = false)) : l1 = l2 := by
  haveI : IsAntisymm String (fun x y => stringLess y x = false) :=
    ⟨fun a b hab hba => String.ext (lexLess_total _ _ hba hab)⟩
  exact List.eq_of_perm_of_sorted hp h1 h2

/-! ### Base names -/

theorem takeWhile_append_stop (p : Char → Bool) (l1 l2 : List Char) (a : Char)
    (h1 : ∀ x ∈ l1, p x = true) (h2 : p a = false) :
    (l1 ++ a :: l2).takeWhile p = l1 := by
  induction l1 with
  | nil => simp [List.takeWhile, h2]
  | cons x xs ih =>
    have hx := h1 x (List.mem_cons_self _ _)
    rw [List.cons_append, List.takeWhile_cons, hx, if_pos rfl,
      ih (fun y hy => h1 y (List.mem_cons_of_mem _ hy))]

theorem Base_join (dir n : String) (hne : n.data ≠ []) (hsep : '/' ∉ n.data) :
    Base (dir ++ "/" ++ n) = n := by
  have hdata : (dir ++ "/" ++ n).data = dir.data ++ '/' :: n.data := by
    simp [String.data_append]
  have hrev : (dir.data ++ '/' :: n.data).reverse = n.data.reverse ++ '/' :: dir.data.reverse := by
    simp
  have hall : ∀ x ∈ n.data.reverse, isPathSeparator x = false := by
    intro x hx
    have hx2 : x ∈ n.data := List.mem_reverse.mp hx
    simp only [isPathSeparator, beq_eq_false_iff_ne, ne_eq]
    intro e
    exact hsep (e ▸ hx2)
  have hstrip : stripTrailing (dir.data ++ '/' :: n.data) = dir.data ++ '/' :: n.data := by
    unfold stripTrailing
    rw [hrev]
    cases hr : n.data.reverse with
    | nil => exact absurd (List.reverse_eq_nil_iff.mp hr) hne
    | cons x xs =>
      have hx : isPathSeparator x = false := hall x (by rw [hr]; exact List.mem_cons_self _ _)
      have hr2 : n.data = (x :: xs).reverse := by
        rw [← hr, List.reverse_reverse]
      rw [List.cons_append, List.dropWhile_cons, hx, if_neg (by simp), hr2]
      simp
  have hlast : lastElement (dir.data ++ '/' :: n.data) = n.data := by
    unfold lastElement
    rw [hrev, takeWhile_append_stop _ _ _ _ (fun x hx => by simp [hall x hx]) (by simp [isPathSeparator])]
    simp
  unfold Base
  rw [hdata]
  have h1 : dir.data ++ '/' :: n.data ≠ [] := by simp
  simp only [h1, if_false, hstrip, hlast, hne]

theorem stringLess_join (dir a b : String) :
    stringLess (dir ++ "/" ++ a) (dir ++ "/" ++ b) = stringLess a b := by
  unfold stringLess
  have ha : (dir ++ "/" ++ a).data = (dir.data ++ ['/']) ++ a.data := by simp [String.data_append]
  have hb : (dir ++ "/" ++ b).data = (dir.data ++ ['/']) ++ b.data := by simp [String.data_append]
  rw [ha, hb, lexLess_append_left]

theorem stringLess_of_ne (a b : String) (h1 : stringLess b a = false) (h2 : a ≠ b) :
    stringLess a b = true := by
  by_contra h
  have h3 : lexLess a.data b.data = false := by simpa [stringLess] using h
  exact h2 (String.ext (lexLess_total _ _ h3 h1))

section Whole
variable {σ : Type} (sys : Sys σ) (config : Config) (sentinel : String)

theorem migrateFiles_nothing (files migrations : List String) (oe : Option String) (w : σ)
    (h : ∀ f ∈ files, contains (Base f) migrations = true) :
    (migrateFiles sys config sentinel files migrations oe w).executed = [] ∧
    (migrateFiles sys config sentinel files migrations oe w).completed = [] ∧
    (migrateFiles sys config sentinel files migrations oe w).written = none ∧
    (migrateFiles sys config sentinel files migrations oe w).inserts = [] := by
  have hl := migrateFiles_loop sys config sentinel files migrations oe w
  have hn := migrateLoop_nothing sys config sentinel migrations files ⟨[], [], false, w⟩ h
  have hc : (migrateFiles sys config sentinel files migrations oe w).completed = [] := by
    rw [hl.2.1, loopEnd, hn]
  refine ⟨?_, hc, ?_, ?_⟩
  · rw [hl.1, loopEnd, hn]
  · rw [migrateFiles_written, hc]; simp
  · rw [migrateFiles_inserts, loopEnd, hn]; rfl

theorem migrateDB_nothing (w : σ)
    (h : ∀ f ∈ (migrateDB sys sentinel config w).files,
      contains (Base f) (migrateDB sys sentinel config w).migrations = true) :
    (migrateDB sys sentinel config w).executed = [] ∧
    (migrateDB sys sentinel config w).completed = [] ∧
    (migrateDB sys sentinel config w).written = none ∧
    (migrateDB sys sentinel config w).inserts = [] := by
  rcases migrateDB_cases sys config sentinel w with hc | ⟨w0, h0⟩
  · exact ⟨hc.2.2.2.1, hc.2.2.2.2.1, hc.2.2.2.2.2.1, hc.2.2.2.2.2.2⟩
  · have hn := migrateFiles_nothing sys config sentinel _ _
      (migrateDB sys sentinel config w).openErr w0 h
    rw [← h0] at hn
    exact hn

theorem pending_eq_nil (files migrations : List String)
    (h : ∀ f ∈ files, contains (Base f) migrations = true) : pending files migrations = [] := by
  unfold pending
  rw [List.filter_eq_nil_iff]
  intro f hf
  simp [h f hf]

theorem mem_pending (files migrations : List String) (f : String) :
    f ∈ pending files migrations ↔ f ∈ files ∧ contains (Base f) migrations = false := by
  simp [pending, List.mem_filter]

theorem migrateDB_complete (w : σ) (h : (migrateDB sys sentinel config w).halted = false) :
    (migrateDB sys sentinel config w).executed =
      (pending (migrateDB sys sentinel config w).files
        (migrateDB sys sentinel config w).migrations).map (psqlArgs config sentinel) ∧
    (migrateDB sys sentinel config w).completed =
      (pending (migrateDB sys sentinel config w).files
        (migrateDB sys sentinel config w).migrations).map Base := by
  rcases migrateDB_cases sys config sentinel w with hc | ⟨w0, h0⟩
  · rw [hc.2.1, hc.2.2.2.1, hc.2.2.2.2.1]; simp [pending]
  · have hl := migrateFiles_loop sys config sentinel (migrateDB sys sentinel config w).files
      (migrateDB sys sentinel config w).migrations (migrateDB sys sentinel config w).openErr w0
    rw [← h0] at hl
    have hh : (loopEnd sys config sentinel (migrateDB sys sentinel config w).files
        (migrateDB sys sentinel config w).migrations w0).halted = false := by
      rw [← hl.2.2]; exact h
    have := migrateLoop_complete sys config sentinel (migrateDB sys sentinel config w).migrations
      (migrateDB sys sentinel config w).files ⟨[], [], false, w0⟩ rfl hh
    rw [hl.1, hl.2.1]
    simpa [loopEnd] using this

theorem migrateDB_inserts (w : σ) :
    ∃ w0, (migrateDB sys sentinel config w).inserts =
      (writeMetadata sys (migrateDB sys sentinel config w).completed w0).1 := by
  rcases migrateDB_cases sys config sentinel w with hc | ⟨w0, h0⟩
  · exact ⟨w, by rw [hc.2.2.2.2.2.2, hc.2.2.2.2.1]; rfl⟩
  · have hi := migrateFiles_inserts sys config sentinel (migrateDB sys sentinel config w).files
      (migrateDB sys sentinel config w).migrations (migrateDB sys sentinel config w).openErr w0
    have hl := migrateFiles_loop sys config sentinel (migrateDB sys sentinel config w).files
      (migrateDB sys sentinel config w).migrations (migrateDB sys sentinel config w).openErr w0
    rw [← h0] at hi hl
    exact ⟨_, by rw [hi, hl.2.1]⟩

theorem ledgerAfter_inserts (w : σ) (ledger : List LedgerRow)
    (hins : ∀ c ∈ (migrateDB sys sentinel config w).inserts, c.err = none) :
    ledgerAfter ledger (migrateDB sys sentinel config w).inserts =
      ledger ++ (migrateDB sys sentinel config w).completed.map
        (fun m => (⟨freskaVersion, m, 100⟩ : LedgerRow)) := by
  obtain ⟨w0, h0⟩ := migrateDB_inserts sys config sentinel w
  rw [h0] at hins ⊢
  exact ledgerAfter_writeMetadata sys ledger _ w0 hins

end Whole

section Executed
variable {σ : Type} (sys : Sys σ) (config : Config) (sentinel : String)

theorem migrateLoop_executed_take (migrations files : List String) (st : LoopState σ)
    (hst : st.halted = false) :
    ∃ k, (pending files migrations ≠ [] → 0 < k) ∧
      (migrateLoop sys config sentinel migrations files st).executed =
        st.executed ++ ((pending files migrations).take k).map (psqlArgs config sentinel) := by
  induction files generalizing st with
  | nil => exact ⟨0, by simp [pending], by simp [migrateLoop]⟩
  | cons file files ih =>
    by_cases hc : contains (Base file) migrations = true
    · have hp : pending (file :: files) migrations = pending files migrations := by
        simp [pending, hc]
      rw [hp]
      simp only [migrateLoop, migrateBody_applied sys config sentinel migrations file st hc, hst]
      exact ih st hst
    · have hc2 : contains (Base file) migrations = false := by simpa using hc
      have hp : pending (file :: files) migrations = file :: pending files migrations := by
        simp [pending, hc2]
      rw [hp]
      rcases hrun : runCommand sys "psql" (psqlArgs config sentinel file) st.world with ⟨result, w1⟩
      by_cases hf : isFailure result = true
      · exact ⟨1, fun _ => Nat.one_pos, by simp [migrateLoop, migrateBody, hc2, hrun, hf]⟩
      · have hf2 : isFailure result = false := by simpa using hf
        obtain ⟨k, _, hk⟩ := ih ⟨st.executed ++ [psqlArgs config sentinel file],
          st.completed ++ [Base file], false, w1⟩ rfl
        refine ⟨k + 1, fun _ => Nat.succ_pos k, ?_⟩
        simp [migrateLoop, migrateBody, hc2, hrun, hf2]
        simpa using hk

theorem migrateDB_executed_take (w : σ) :
    ∃ k, (pending (migrateDB sys sentinel config w).files
          (migrateDB sys sentinel config w).migrations ≠ [] → 0 < k) ∧
      (migrateDB sys sentinel config w).executed =
        ((pending (migrateDB sys sentinel config w).files
          (migrateDB sys sentinel config w).migrations).take k).map (psqlArgs config sentinel) := by
  rcases migrateDB_cases sys config sentinel w with hc | ⟨w0, h0⟩
  · exact ⟨1, fun _ => Nat.one_pos, by rw [hc.2.1, hc.2.2.2.1]; simp [pending]⟩
  · have hl := migrateFiles_loop sys config sentinel (migrateDB sys sentinel config w).files
      (migrateDB sys sentinel config w).migrations (migrateDB sys sentinel config w).openErr w0
    rw [← h0] at hl
    obtain ⟨k, hk0, hk⟩ := migrateLoop_executed_take sys config sentinel
      (migrateDB sys sentinel config w).migrations (migrateDB sys sentinel config w).files
      ⟨[], [], false, w0⟩ rfl
    refine ⟨k, hk0, ?_⟩
    rw [hl.1]
    simpa [loopEnd] using hk

theorem pending_nil (files : List String) : pending files [] = files := by
  simp [pending, contains]

end Executed

theorem scanRows_ok (pre acc : List String) (rest : List (Except String String)) :
    scanRows (pre.map Except.ok ++ rest) acc = scanRows rest (acc ++ pre) := by
  induction pre generalizing acc with
  | nil => simp
  | cons m pre ih =>
    rw [List.map_cons, List.cons_append, scanRows, ih]
    simp

theorem runCommand_eq {σ : Type} (sys : Sys σ) (command : String) (args : List String)
    (w : σ) :
    runCommand sys command args w =
      (⟨(sys.combinedOutput command args w).1.1, (sys.combinedOutput command args w).1.2⟩,
        (sys.combinedOutput command args w).2) := by
  unfold runCommand
  rcases sys.combinedOutput command args w with ⟨⟨output, err⟩, w1⟩
  cases err <;> rfl

theorem writeMetadata_cons {σ : Type} (sys : Sys σ) (m : String) (names : List String)
    (w : σ) :
    writeMetadata sys (m :: names) w =
      (⟨insertSQL, [freskaVersion, m], (sys.queryExecSQL insertSQL [freskaVersion, m] w).1⟩ ::
          (writeMetadata sys names (sys.queryExecSQL insertSQL [freskaVersion, m] w).2).1,
        (writeMetadata sys names (sys.queryExecSQL insertSQL [freskaVersion, m] w).2).2) := by
  rfl

theorem writeMetadata_world {σ : Type} (sys : Sys σ) (names : List String) (w : σ) :
    (writeMetadata sys names w).2 = worldAfterInserts sys names w := by
  induction names generalizing w with
  | nil => rfl
  | cons m names ih =>
    rw [writeMetadata_cons]
    simp only [worldAfterInserts, List.foldl_cons]
    exact ih _

theorem writeMetadata_getElem {σ : Type} (sys : Sys σ) (names : List String) (w : σ)
    (i : Nat) (m : String) (h : names[i]? = some m) :
    (writeMetadata sys names w).1[i]? =
      some ⟨insertSQL, [freskaVersion, m],
        (sys.queryExecSQL insertSQL [freskaVersion, m]
          (worldAfterInserts sys (names.take i) w)).1⟩ := by
  induction names generalizing w i with
  | nil => simp at h
  | cons n names ih =>
    rw [writeMetadata_cons]
    cases i with
    | zero =>
      simp only [List.getElem?_cons_zero, Option.some.injEq] at h
      subst h
      simp [worldAfterInserts]
    | succ i =>
      simp only [List.getElem?_cons_succ] at h
      simp only [List.getElem?_cons_succ, List.take_succ_cons, worldAfterInserts,
        List.foldl_cons]
      exact ih _ i h

/-! ## The claims -/

/-- C1: halt on failure.  Let P be the pending files (base name not in the
applied list), and let the psql outcomes of P be those of executing its files
one after another.  If the first `k` outcomes are successes and the outcome at
index `k`, when there is one, is a failure, then the psql calls made are those
for the first `k + 1` files of P, in order (all of P when `k` is its length),
the completed names are the base names of the first `k` files of P, these names
are what `writeMetadata` receives (no call when there are none), one insert
being made per name, and the loop has hit `break` exactly when `k` is the index
of a file of P. -/
theorem migrateFiles_halt_on_failure {σ : Type} (sys : Sys σ) (config : Config)
    (sentinel : String) (files applied : List String) (openErr : Option String) (w : σ) (k : Nat)
    (hk : k ≤ (pending files applied).length)
    (hok : ∀ i o, i < k →
      (psqlOutcomes sys config sentinel (pending files applied) w)[i]? = some o →
      isFailure o = false)
    (hfail : ∀ o,
      (psqlOutcomes sys config sentinel (pending files applied) w)[k]? = some o →
      isFailure o = true) :
    (migrateFiles sys config sentinel files applied openErr w).executed =
      ((pending files applied).take (k + 1)).map (psqlArgs config sentinel) ∧
    (migrateFiles sys config sentinel files applied openErr w).completed =
      ((pending files applied).take k).map Base ∧
    (migrateFiles sys config sentinel files applied openErr w).written =
      (if ((pending files applied).take k).map Base = [] then none
       else some (((pending files applied).take k).map Base)) ∧
    (migrateFiles sys config sentinel files applied openErr w).inserts.map
        (fun c => (c.sql, c.args)) =
      (((pending files applied).take k).map Base).map (fun m => (insertSQL, [freskaVersion, m])) ∧
    (migrateFiles sys config sentinel files applied openErr w).halted =
      decide (k < (pending files applied).length) := by
  have hl := migrateFiles_loop sys config sentinel files applied openErr w
  have hh := migrateLoop_halt sys config sentinel applied files ⟨[], [], false, w⟩ k rfl hk hok hfail
  have hc : (migrateFiles sys config sentinel files applied openErr w).completed =
      ((pending files applied).take k).map Base := by
    rw [hl.2.1]; simpa [loopEnd] using hh.2.1
  refine ⟨?_, hc, ?_, ?_, ?_⟩
  · rw [hl.1]; simpa [loopEnd] using hh.1
  · rw [migrateFiles_written, hc]
  · rw [migrateFiles_inserts, ← hl.2.1, hc, writeMetadata_calls]
  · rw [hl.2.2]; simpa [loopEnd] using hh.2.2

/-- C1, the scenario of the specification: of the files A, B, C, none applied
yet, B's output contains "ERROR".  A and B are executed, C is not, and only A
is recorded. -/
theorem migrateFiles_halt_on_failure_witness :
    (migrateFiles sysABC devConfig "Create-Database" filesABC [] none ()).executed =
      [["-d", "freska_development", "-f", "db/migrate/001_a.sql"],
       ["-d", "freska_development", "-f", "db/migrate/002_b.sql"]] ∧
    (migrateFiles sysABC devConfig "Create-Database" filesABC [] none ()).completed =
      ["001_a.sql"] ∧
    (migrateFiles sysABC devConfig "Create-Database" filesABC [] none ()).written =
      some ["001_a.sql"] ∧
    (migrateFiles sysABC devConfig "Create-Database" filesABC [] none ()).inserts.map
        (fun c => (c.sql, c.args)) = [(insertSQL, ["1.5.4", "001_a.sql"])] ∧
    (migrateFiles sysABC devConfig "Create-Database" filesABC [] none ()).halted = true := by
  have h := migrateFiles_halt_on_failure sysABC devConfig "Create-Database" filesABC [] none () 1
    (by decide)
    (by
      intro i o hi ho
      have hi0 : i = 0 := by omega
      subst hi0
      have : o = ⟨"CREATE TABLE", none⟩ := by
        have h2 : (psqlOutcomes sysABC devConfig "Create-Database" (pending filesABC []) ())[0]? =
          some ⟨"CREATE TABLE", none⟩ := by decide
        rw [h2] at ho
        exact (Option.some.inj ho).symm
      subst this
      decide)
    (by
      intro o ho
      have h2 : (psqlOutcomes sysABC devConfig "Create-Database" (pending filesABC []) ())[1]? =
          some ⟨"psql:db/migrate/002_b.sql:1: ERROR:  relation users already exists", none⟩ := by
        decide
      rw [h2] at ho
      have : o = ⟨"psql:db/migrate/002_b.sql:1: ERROR:  relation users already exists", none⟩ :=
        (Option.some.inj ho).symm
      subst this
      decide)
  exact ⟨h.1.trans (by decide), h.2.1.trans (by decide), h.2.2.1.trans (by decide),
    h.2.2.2.1.trans (by decide), h.2.2.2.2.trans (by decide)⟩

/-- C2: idempotence.  Let a first run, whose applied list was read from a
ledger table `ledger`, execute every pending migration without failure and
have every insert of `writeMetadata` succeed.  Let a second run have the same
file set, a database that opens, and an applied list that is the read of the
table as the first run left it.  Then the pending set of the second run is
empty, it makes no psql call, completes nothing and writes nothing. -/
theorem migrateDB_idempotent {σ : Type} (sys : Sys σ) (sentinel : String) (config : Config)
    (w1 w2 : σ) (ledger : List LedgerRow)
    (hread : ∀ m ∈ (migrateDB sys sentinel config w1).migrations, m ∈ ledgerSelect ledger)
    (hrun : (migrateDB sys sentinel config w1).halted = false)
    (hins : ∀ c ∈ (migrateDB sys sentinel config w1).inserts, c.err = none)
    (hfiles : ∀ f, f ∈ (migrateDB sys sentinel config w2).files ↔
      f ∈ (migrateDB sys sentinel config w1).files)
    (_hopen : (migrateDB sys sentinel config w2).openErr = none)
    (hledger : (migrateDB sys sentinel config w2).migrations =
      ledgerSelect (ledgerAfter ledger (migrateDB sys sentinel config w1).inserts)) :
    pending (migrateDB sys sentinel config w2).files
      (migrateDB sys sentinel config w2).migrations = [] ∧
    (migrateDB sys sentinel config w2).executed = [] ∧
    (migrateDB sys sentinel config w2).completed = [] ∧
    (migrateDB sys sentinel config w2).written = none ∧
    (migrateDB sys sentinel config w2).inserts = [] := by
  have hall : ∀ f ∈ (migrateDB sys sentinel config w2).files,
      contains (Base f) (migrateDB sys sentinel config w2).migrations = true := by
    intro f hf
    have hf1 := (hfiles f).mp hf
    rw [contains_iff, hledger, ledgerAfter_inserts sys config sentinel w1 ledger hins]
    simp only [ledgerSelect, List.reverse_append, List.map_append, List.mem_append,
      List.mem_map, List.mem_reverse]
    by_cases hc : contains (Base f) (migrateDB sys sentinel config w1).migrations = true
    · right
      have := hread _ ((contains_iff _ _).mp hc)
      simpa [ledgerSelect] using this
    · left
      have hc2 : contains (Base f) (migrateDB sys sentinel config w1).migrations = false := by
        simpa using hc
      have hp := (mem_pending _ _ f).mpr ⟨hf1, hc2⟩
      have hcomp := (migrateDB_complete sys config sentinel w1 hrun).2
      rw [hcomp]
      refine ⟨⟨freskaVersion, Base f, 100⟩, ?_, rfl⟩
      exact ⟨Base f, List.mem_map.mpr ⟨f, hp, rfl⟩, rfl⟩
  exact ⟨pending_eq_nil _ _ hall, migrateDB_nothing sys config sentinel w2 hall⟩

/-- C2 at a concrete project: the first run applies both migrations, the run
that starts in the world it leaves executes nothing. -/
theorem migrateDB_idempotent_witness :
    (migrateDB healthy "Create-Database" devConfig worldFresh).completed =
      ["001_a.sql", "002_b.sql"] ∧
    pending
      (migrateDB healthy "Create-Database" devConfig
        (migrateDB healthy "Create-Database" devConfig worldFresh).world).files
      (migrateDB healthy "Create-Database" devConfig
        (migrateDB healthy "Create-Database" devConfig worldFresh).world).migrations = [] ∧
    (migrateDB healthy "Create-Database" devConfig
      (migrateDB healthy "Create-Database" devConfig worldFresh).world).executed = [] ∧
    (migrateDB healthy "Create-Database" devConfig
      (migrateDB healthy "Create-Database" devConfig worldFresh).world).completed = [] ∧
    (migrateDB healthy "Create-Database" devConfig
      (migrateDB healthy "Create-Database" devConfig worldFresh).world).written = none ∧
    (migrateDB healthy "Create-Database" devConfig
      (migrateDB healthy "Create-Database" devConfig worldFresh).world).inserts = [] :=
  ⟨by decide,
    migrateDB_idempotent healthy "Create-Database" devConfig worldFresh
      (migrateDB healthy "Create-Database" devConfig worldFresh).world []
      (by decide) (by decide) (by decide)
      (fun f => by
        rw [show (migrateDB healthy "Create-Database" devConfig
            (migrateDB healthy "Create-Database" devConfig worldFresh).world).files =
          (migrateDB healthy "Create-Database" devConfig worldFresh).files from by decide])
      (by decide) (by decide)⟩

/-- C3 as stated fails: opening the database fails, the applied list is empty
and the first sorted file is a creation migration, yet the second file is
executed with `-f file` and not with `-d config[db] -f file`, its base name
containing the sentinel as well. -/
theorem migrateDB_creation_parameters_counterexample :
    (migrateDB sysTwoCreations "Create-Database" devConfig ()).openErr =
      some "pq: database does not exist" ∧
    (migrateDB sysTwoCreations "Create-Database" devConfig ()).migrations = [] ∧
    (migrateDB sysTwoCreations "Create-Database" devConfig ()).files =
      ["db/migrate/001_Create-Database.sql", "db/migrate/002_Create-Database-Extensions.sql"] ∧
    stringsContains (Base "db/migrate/001_Create-Database.sql") "Create-Database" = true ∧
    (migrateDB sysTwoCreations "Create-Database" devConfig ()).executed =
      [["-f", "db/migrate/001_Create-Database.sql"],
       ["-f", "db/migrate/002_Create-Database-Extensions.sql"]] ∧
    (migrateDB sysTwoCreations "Create-Database" devConfig ()).executed[1]? ≠
      some ["-d", devConfig "db", "-f", "db/migrate/002_Create-Database-Extensions.sql"] := by
  decide

/-- C3, amended.  If opening the database fails (so that the applied list is
empty) and the first of the sorted files has the creation sentinel in its base
name, that file is executed with the arguments `-f file`, and every later file
that is executed gets `-d config[db] -f file` when its base name does not
contain the sentinel and `-f file` when it does. -/
theorem migrateDB_creation_parameters {σ : Type} (sys : Sys σ) (sentinel : String)
    (config : Config) (w : σ) (e f : String) (rest : List String)
    (hopen : (migrateDB sys sentinel config w).openErr = some e)
    (hfiles : (migrateDB sys sentinel config w).files = f :: rest)
    (hsent : stringsContains (Base f) sentinel = true) :
    (migrateDB sys sentinel config w).migrations = [] ∧
    (migrateDB sys sentinel config w).executed.head? = some ["-f", f] ∧
    ∀ i g a, rest[i]? = some g → (migrateDB sys sentinel config w).executed[i + 1]? = some a →
      a = if stringsContains (Base g) sentinel then ["-f", g] else ["-d", config "db", "-f", g] := by
  have hm := migrateDB_open_failed sys config sentinel w e hopen
  obtain ⟨k, hk0, hk⟩ := migrateDB_executed_take sys config sentinel w
  rw [hm, pending_nil, hfiles] at hk hk0
  have hkpos : 0 < k := hk0 (by simp)
  obtain ⟨j, rfl⟩ : ∃ j, k = j + 1 := ⟨k - 1, by omega⟩
  refine ⟨hm, ?_, ?_⟩
  · rw [hk]
    simp [psqlArgs, hsent]
  · intro i g a hg ha
    rw [hk] at ha
    simp only [List.take_succ_cons, List.map_cons, List.getElem?_cons_succ, List.getElem?_map,
      List.getElem?_take] at ha
    by_cases hij : i < j
    · simp only [hij, if_true, hg, Option.map_some', Option.some.injEq] at ha
      rw [← ha]
      rfl
    · simp [hij] at ha

/-- C3, amended, at a concrete project: the creation migration is run against
the server and the table migration against the configured database. -/
theorem migrateDB_creation_parameters_witness :
    (migrateDB sysBootstrap "Create-Database" devConfig ()).executed =
      [["-f", "db/migrate/001_Create-Database.sql"],
       ["-d", "freska_development", "-f", "db/migrate/002_Create-Tables.sql"]] ∧
    (migrateDB sysBootstrap "Create-Database" devConfig ()).migrations = [] ∧
    (migrateDB sysBootstrap "Create-Database" devConfig ()).executed.head? =
      some ["-f", "db/migrate/001_Create-Database.sql"] ∧
    ∀ i g a, ["db/migrate/002_Create-Tables.sql"][i]? = some g →
      (migrateDB sysBootstrap "Create-Database" devConfig ()).executed[i + 1]? = some a →
      a = if stringsContains (Base g) "Create-Database" then ["-f", g]
        else ["-d", devConfig "db", "-f", g] :=
  ⟨by decide,
    migrateDB_creation_parameters sysBootstrap "Create-Database" devConfig ()
      "pq: database does not exist" "db/migrate/001_Create-Database.sql"
      ["db/migrate/002_Create-Tables.sql"] (by decide) (by decide) (by decide)⟩

/-- C4: discovery order.  Let the glob return any list of distinct paths, each
a file name without separator joined to one directory.  Then the list iterated
by `migrateDB` is a permutation of the glob result, it is in strictly ascending
order, so is the list of its base names, and that list is what sorting the base
names themselves gives. -/
theorem migrateDB_discovery_order {σ : Type} (sys : Sys σ) (sentinel : String)
    (config : Config) (w : σ) (dir : String) (listing : List String)
    (hglob : (sys.glob "./db/migrate/*.sql" w).1 = Except.ok listing)
    (hdir : ∀ f ∈ listing, ∃ n : String, f = dir ++ "/" ++ n ∧ n.data ≠ [] ∧ '/' ∉ n.data)
    (hnodup : listing.Nodup) :
    (migrateDB sys sentinel config w).files.Perm listing ∧
    (migrateDB sys sentinel config w).files.Pairwise (fun a b => stringLess a b = true) ∧
    ((migrateDB sys sentinel config w).files.map Base).Pairwise
      (fun a b => stringLess a b = true) ∧
    (migrateDB sys sentinel config w).files.map Base = sortStrings (listing.map Base) := by
  rw [migrateDB_files sys config sentinel w listing hglob]
  have hperm := sortStrings_perm listing
  have hsorted := sortStrings_sorted listing
  have hnd : (sortStrings listing).Nodup := hperm.nodup_iff.mpr hnodup
  have hstrict : (sortStrings listing).Pairwise (fun a b => stringLess a b = true) :=
    (hsorted.and hnd).imp (fun {a b} h => stringLess_of_ne a b h.1 h.2)
  have hbase : ((sortStrings listing).map Base).Pairwise (fun a b => stringLess a b = true) := by
    rw [List.pairwise_map]
    refine hstrict.imp_of_mem ?_
    intro a b ha hb hab
    obtain ⟨na, rfl, hna, hsa⟩ := hdir a (hperm.subset ha)
    obtain ⟨nb, rfl, hnb, hsb⟩ := hdir b (hperm.subset hb)
    rw [Base_join dir na hna hsa, Base_join dir nb hnb hsb]
    rw [stringLess_join] at hab
    exact hab
  refine ⟨hperm, hstrict, hbase, ?_⟩
  exact sorted_perm_unique _ _ ((hperm.map Base).trans (sortStrings_perm _).symm)
    (hbase.imp (fun {a b} h => lexLess_asymm _ _ h)) (sortStrings_sorted _)

/-- C4 at a concrete directory, listed out of order. -/
theorem migrateDB_discovery_order_witness :
    (migrateDB healthy "Create-Database" devConfig worldFresh).files =
      ["db/migrate/001_a.sql", "db/migrate/002_b.sql"] ∧
    (migrateDB healthy "Create-Database" devConfig worldFresh).files.Perm
      ["db/migrate/002_b.sql", "db/migrate/001_a.sql"] ∧
    (migrateDB healthy "Create-Database" devConfig worldFresh).files.Pairwise
      (fun a b => stringLess a b = true) ∧
    ((migrateDB healthy "Create-Database" devConfig worldFresh).files.map Base).Pairwise
      (fun a b => stringLess a b = true) ∧
    (migrateDB healthy "Create-Database" devConfig worldFresh).files.map Base =
      sortStrings (["db/migrate/002_b.sql", "db/migrate/001_a.sql"].map Base) :=
  ⟨by decide,
    migrateDB_discovery_order healthy "Create-Database" devConfig worldFresh "db/migrate"
      ["db/migrate/002_b.sql", "db/migrate/001_a.sql"] rfl
      (by
        intro f hf
        simp only [List.mem_cons, List.mem_singleton, List.not_mem_nil, or_false] at hf
        rcases hf with rfl | rfl
        · exact ⟨"002_b.sql", by decide, by decide, by decide⟩
        · exact ⟨"001_a.sql", by decide, by decide, by decide⟩)
      (by decide)⟩

/-- C5: failure classification.  For a file that is not in the applied list,
let `(output, err)` be what the psql process returns for it, in the world the
loop is in.  `runCommand` hands both back unchanged.  The loop body hits
`break` if and only if `err` is non-nil or `output` contains "ERROR"; the base
name is appended to the completed names if and only if neither is the case, and
the completed names are unchanged otherwise.  In both cases the psql call is
recorded and the world is the one the process left. -/
theorem migrateBody_classification {σ : Type} (sys : Sys σ) (config : Config)
    (sentinel : String) (migrations : List String) (file : String) (st : LoopState σ)
    (hpending : contains (Base file) migrations = false) :
    runCommand sys "psql" (psqlArgs config sentinel file) st.world =
      (⟨(sys.combinedOutput "psql" (psqlArgs config sentinel file) st.world).1.1,
         (sys.combinedOutput "psql" (psqlArgs config sentinel file) st.world).1.2⟩,
        (sys.combinedOutput "psql" (psqlArgs config sentinel file) st.world).2) ∧
    ((migrateBody sys config sentinel migrations file st).halted = true ↔
      ((sys.combinedOutput "psql" (psqlArgs config sentinel file) st.world).1.2 ≠ none ∨
        "ERROR".data <:+:
          (sys.combinedOutput "psql" (psqlArgs config sentinel file) st.world).1.1.data)) ∧
    ((migrateBody sys config sentinel migrations file st).completed =
        st.completed ++ [Base file] ↔
      ¬ ((sys.combinedOutput "psql" (psqlArgs config sentinel file) st.world).1.2 ≠ none ∨
        "ERROR".data <:+:
          (sys.combinedOutput "psql" (psqlArgs config sentinel file) st.world).1.1.data)) ∧
    ((migrateBody sys config sentinel migrations file st).completed = st.completed ↔
      ((sys.combinedOutput "psql" (psqlArgs config sentinel file) st.world).1.2 ≠ none ∨
        "ERROR".data <:+:
          (sys.combinedOutput "psql" (psqlArgs config sentinel file) st.world).1.1.data)) ∧
    (migrateBody sys config sentinel migrations file st).executed =
      st.executed ++ [psqlArgs config sentinel file] ∧
    (migrateBody sys config sentinel migrations file st).world =
      (sys.combinedOutput "psql" (psqlArgs config sentinel file) st.world).2 := by
  have hrun := runCommand_eq sys "psql" (psqlArgs config sentinel file) st.world
  rcases hco : sys.combinedOutput "psql" (psqlArgs config sentinel file) st.world with
    ⟨⟨output, err⟩, w1⟩
  rw [hco] at hrun
  have hiff := isFailure_iff ⟨output, err⟩
  dsimp only at hrun hiff ⊢
  refine ⟨hrun, ?_⟩
  rw [← hiff]
  by_cases hf : isFailure ⟨output, err⟩ = true
  · simp [migrateBody, hpending, hrun, hf]
  · have hf2 : isFailure ⟨output, err⟩ = false := by simpa using hf
    simp [migrateBody, hpending, hrun, hf2]

/-- C5 at concrete calls.  In the halt-on-failure scenario the file B is
pending, psql exits with status zero and its output contains "ERROR": the body
hits `break` and the completed names stay as they were.  In a world where psql
exits with a nonzero status and an output without "ERROR", the body hits
`break` too and the completed names stay as they were.  For the file A of the
first scenario, with a nil error and an output without "ERROR", the body does
not hit `break` and the name is appended. -/
theorem migrateBody_classification_witness :
    contains (Base "db/migrate/002_b.sql") [] = false ∧
    (migrateBody sysABC devConfig "Create-Database" [] "db/migrate/002_b.sql"
      ⟨[], ["001_a.sql"], false, ()⟩).halted = true ∧
    (migrateBody sysABC devConfig "Create-Database" [] "db/migrate/002_b.sql"
      ⟨[], ["001_a.sql"], false, ()⟩).completed = ["001_a.sql"] ∧
    (sysPsqlExits.combinedOutput "psql"
      (psqlArgs devConfig "Create-Database" "db/migrate/001_a.sql") ()).1 =
      ("psql: could not connect to server: Connection refused", some "exit status 2") ∧
    stringsContains "psql: could not connect to server: Connection refused" "ERROR" = false ∧
    (migrateBody sysPsqlExits devConfig "Create-Database" [] "db/migrate/001_a.sql"
      ⟨[], [], false, ()⟩).halted = true ∧
    (migrateBody sysPsqlExits devConfig "Create-Database" [] "db/migrate/001_a.sql"
      ⟨[], [], false, ()⟩).completed = [] ∧
    (migrateBody sysABC devConfig "Create-Database" [] "db/migrate/001_a.sql"
      ⟨[], [], false, ()⟩).halted = false ∧
    (migrateBody sysABC devConfig "Create-Database" [] "db/migrate/001_a.sql"
      ⟨[], [], false, ()⟩).completed = ["001_a.sql"] :=
  ⟨by decide,
    (migrateBody_classification sysABC devConfig "Create-Database" [] "db/migrate/002_b.sql"
      ⟨[], ["001_a.sql"], false, ()⟩ (by decide)).2.1.mpr (Or.inr (by decide)),
    (migrateBody_classification sysABC devConfig "Create-Database" [] "db/migrate/002_b.sql"
      ⟨[], ["001_a.sql"], false, ()⟩ (by decide)).2.2.2.1.mpr (Or.inr (by decide)),
    by decide, by decide,
    (migrateBody_classification sysPsqlExits devConfig "Create-Database" []
      "db/migrate/001_a.sql" ⟨[], [], false, ()⟩ (by decide)).2.1.mpr (Or.inl (by decide)),
    (migrateBody_classification sysPsqlExits devConfig "Create-Database" []
      "db/migrate/001_a.sql" ⟨[], [], false, ()⟩ (by decide)).2.2.2.1.mpr (Or.inl (by decide)),
    by
      have h := (migrateBody_classification sysABC devConfig "Create-Database" []
        "db/migrate/001_a.sql" ⟨[], [], false, ()⟩ (by decide)).2.1
      cases hh : (migrateBody sysABC devConfig "Create-Database" [] "db/migrate/001_a.sql"
        ⟨[], [], false, ()⟩).halted with
      | false => rfl
      | true => exact absurd (h.mp hh) (by decide),
    (migrateBody_classification sysABC devConfig "Create-Database" [] "db/migrate/001_a.sql"
      ⟨[], [], false, ()⟩ (by decide)).2.2.1.mpr (by decide)⟩

/-- C6: nothing to do.  If the applied list read from the ledger holds exactly
the base names of the discovered files, the run makes no psql call, completes
nothing, does not call `writeMetadata` and makes no insert. -/
theorem migrateDB_nothing_to_do {σ : Type} (sys : Sys σ) (sentinel : String) (config : Config)
    (w : σ)
    (h : ∀ x, x ∈ (migrateDB sys sentinel config w).migrations ↔
      x ∈ (migrateDB sys sentinel config w).files.map Base) :
    (migrateDB sys sentinel config w).executed = [] ∧
    (migrateDB sys sentinel config w).completed = [] ∧
    (migrateDB sys sentinel config w).written = none ∧
    (migrateDB sys sentinel config w).inserts = [] := by
  apply migrateDB_nothing
  intro f hf
  rw [contains_iff, h]
  exact List.mem_map.mpr ⟨f, hf, rfl⟩

/-- C6 at a concrete project. -/
theorem migrateDB_nothing_to_do_witness :
    (migrateDB healthy "Create-Database" devConfig worldDone).migrations =
      ["002_b.sql", "001_a.sql"] ∧
    (migrateDB healthy "Create-Database" devConfig worldDone).files.map Base =
      ["001_a.sql", "002_b.sql"] ∧
    (migrateDB healthy "Create-Database" devConfig worldDone).executed = [] ∧
    (migrateDB healthy "Create-Database" devConfig worldDone).completed = [] ∧
    (migrateDB healthy "Create-Database" devConfig worldDone).written = none ∧
    (migrateDB healthy "Create-Database" devConfig worldDone).inserts = [] :=
  ⟨by decide, by decide,
    migrateDB_nothing_to_do healthy "Create-Database" devConfig worldDone (fun x => by
      rw [show (migrateDB healthy "Create-Database" devConfig worldDone).migrations =
          ["002_b.sql", "001_a.sql"] from by decide,
        show (migrateDB healthy "Create-Database" devConfig worldDone).files.map Base =
          ["001_a.sql", "002_b.sql"] from by decide]
      simp only [List.mem_cons, List.mem_singleton, List.not_mem_nil, or_false]
      exact Or.comm)⟩

/-- C7 as stated fails.  In the bootstrap scenario all three executions
succeed, `writeMetadata` attempts its three inserts, every insert fails, and
the ledger ends with no row instead of three; the next run, with 004 added,
executes all four files and not only 004.  And where the inserts succeed and
the ledger holds its three rows, a next run that cannot open the database
executes all four files as well. -/
theorem migrateDB_bootstrap_counterexample :
    (migrateDB insertsFail "create_db" devConfig worldBootstrap).openErr =
      some "database does not exist" ∧
    (migrateDB insertsFail "create_db" devConfig worldBootstrap).files = bootstrapFiles ∧
    (migrateDB insertsFail "create_db" devConfig worldBootstrap).executed.length = 3 ∧
    (migrateDB insertsFail "create_db" devConfig worldBootstrap).halted = false ∧
    (migrateDB insertsFail "create_db" devConfig worldBootstrap).written =
      some ["001_create_db.sql", "002_create_users.sql", "003_add_email.sql"] ∧
    ledgerAfter []
      (migrateDB insertsFail "create_db" devConfig worldBootstrap).inserts = [] ∧
    (migrateDB insertsFail "create_db" devConfig worldBootstrap).world.ledger = [] ∧
    (migrateDB insertsFail "create_db" devConfig
      (worldSecond (migrateDB insertsFail "create_db" devConfig
        worldBootstrap).world.ledger)).executed =
      [["-f", "db/migrate/001_create_db.sql"],
       ["-d", "freska_development", "-f", "db/migrate/002_create_users.sql"],
       ["-d", "freska_development", "-f", "db/migrate/003_add_email.sql"],
       ["-d", "freska_development", "-f", "db/migrate/004_add_index.sql"]] ∧
    (migrateDB healthy "create_db" devConfig worldBootstrap).world.ledger =
      [⟨"1.5.4", "001_create_db.sql", 100⟩, ⟨"1.5.4", "002_create_users.sql", 100⟩,
       ⟨"1.5.4", "003_add_email.sql", 100⟩] ∧
    (migrateDB healthy "create_db" devConfig
      (worldSecondDown (migrateDB healthy "create_db" devConfig
        worldBootstrap).world.ledger)).executed =
      [["-f", "db/migrate/001_create_db.sql"],
       ["-d", "freska_development", "-f", "db/migrate/002_create_users.sql"],
       ["-d", "freska_development", "-f", "db/migrate/003_add_email.sql"],
       ["-d", "freska_development", "-f", "db/migrate/004_add_index.sql"]] := by
  decide

/-- C7, amended.  In the bootstrap scenario (the three files, opening the
database fails) let all three executions succeed and let every insert of
`writeMetadata` succeed.  Then the three files are executed in order and a
ledger that was empty ends with three rows, one per migration, in that order.
If a later run finds the fourth file added, opens the database and reads that
ledger, its only pending file is 004 and its only psql call is the one for 004. -/
theorem migrateDB_bootstrap {σ : Type} (sys : Sys σ) (sentinel : String) (config : Config)
    (w1 w2 : σ) (e : String)
    (hfiles1 : (migrateDB sys sentinel config w1).files =
      ["db/migrate/001_create_db.sql", "db/migrate/002_create_users.sql",
       "db/migrate/003_add_email.sql"])
    (hopen1 : (migrateDB sys sentinel config w1).openErr = some e)
    (hrun : (migrateDB sys sentinel config w1).halted = false)
    (hins : ∀ c ∈ (migrateDB sys sentinel config w1).inserts, c.err = none)
    (hfiles2 : (migrateDB sys sentinel config w2).files =
      ["db/migrate/001_create_db.sql", "db/migrate/002_create_users.sql",
       "db/migrate/003_add_email.sql", "db/migrate/004_add_index.sql"])
    (_hopen2 : (migrateDB sys sentinel config w2).openErr = none)
    (hledger : (migrateDB sys sentinel config w2).migrations =
      ledgerSelect (ledgerAfter [] (migrateDB sys sentinel config w1).inserts)) :
    (migrateDB sys sentinel config w1).executed =
      [psqlArgs config sentinel "db/migrate/001_create_db.sql",
       psqlArgs config sentinel "db/migrate/002_create_users.sql",
       psqlArgs config sentinel "db/migrate/003_add_email.sql"] ∧
    ledgerAfter [] (migrateDB sys sentinel config w1).inserts =
      [⟨"1.5.4", "001_create_db.sql", 100⟩, ⟨"1.5.4", "002_create_users.sql", 100⟩,
       ⟨"1.5.4", "003_add_email.sql", 100⟩] ∧
    pending (migrateDB sys sentinel config w2).files
      (migrateDB sys sentinel config w2).migrations = ["db/migrate/004_add_index.sql"] ∧
    (migrateDB sys sentinel config w2).executed =
      [psqlArgs config sentinel "db/migrate/004_add_index.sql"] := by
  have hm := migrateDB_open_failed sys config sentinel w1 e hopen1
  have hc := migrateDB_complete sys config sentinel w1 hrun
  rw [hm, pending_nil, hfiles1] at hc
  have hcompleted : (migrateDB sys sentinel config w1).completed =
      ["001_create_db.sql", "002_create_users.sql", "003_add_email.sql"] := by
    rw [hc.2]; decide
  have hl : ledgerAfter [] (migrateDB sys sentinel config w1).inserts =
      [⟨"1.5.4", "001_create_db.sql", 100⟩, ⟨"1.5.4", "002_create_users.sql", 100⟩,
       ⟨"1.5.4", "003_add_email.sql", 100⟩] := by
    rw [ledgerAfter_inserts sys config sentinel w1 [] hins, hcompleted]
    rfl
  have hp : pending (migrateDB sys sentinel config w2).files
      (migrateDB sys sentinel config w2).migrations = ["db/migrate/004_add_index.sql"] := by
    rw [hledger, hl, hfiles2]
    decide
  obtain ⟨k, hk0, hk⟩ := migrateDB_executed_take sys config sentinel w2
  rw [hp] at hk hk0
  have hkpos : 0 < k := hk0 (by simp)
  obtain ⟨j, rfl⟩ : ∃ j, k = j + 1 := ⟨k - 1, by omega⟩
  refine ⟨by rw [hc.1]; rfl, hl, hp, ?_⟩
  rw [hk]
  simp

/-- C7, amended, in the healthy world: the first run starts without a
database, the second in the world the first one left, with 004 added and the
database open. -/
theorem migrateDB_bootstrap_witness :
    (migrateDB healthy "create_db" devConfig worldBootstrap).world.ledger =
      [⟨"1.5.4", "001_create_db.sql", 100⟩, ⟨"1.5.4", "002_create_users.sql", 100⟩,
       ⟨"1.5.4", "003_add_email.sql", 100⟩] ∧
    (migrateDB healthy "create_db" devConfig worldBootstrap).executed =
      [psqlArgs devConfig "create_db" "db/migrate/001_create_db.sql",
       psqlArgs devConfig "create_db" "db/migrate/002_create_users.sql",
       psqlArgs devConfig "create_db" "db/migrate/003_add_email.sql"] ∧
    ledgerAfter [] (migrateDB healthy "create_db" devConfig worldBootstrap).inserts =
      [⟨"1.5.4", "001_create_db.sql", 100⟩, ⟨"1.5.4", "002_create_users.sql", 100⟩,
       ⟨"1.5.4", "003_add_email.sql", 100⟩] ∧
    pending
      (migrateDB healthy "create_db" devConfig
        (worldSecond (migrateDB healthy "create_db" devConfig worldBootstrap).world.ledger)).files
      (migrateDB healthy "create_db" devConfig
        (worldSecond (migrateDB healthy "create_db" devConfig
          worldBootstrap).world.ledger)).migrations = ["db/migrate/004_add_index.sql"] ∧
    (migrateDB healthy "create_db" devConfig
      (worldSecond (migrateDB healthy "create_db" devConfig worldBootstrap).world.ledger)).executed =
      [psqlArgs devConfig "create_db" "db/migrate/004_add_index.sql"] :=
  ⟨by decide,
    migrateDB_bootstrap healthy "create_db" devConfig worldBootstrap
      (worldSecond (migrateDB healthy "create_db" devConfig worldBootstrap).world.ledger)
      "database does not exist" (by decide) (by decide) (by decide) (by decide) (by decide)
      (by decide) (by decide)⟩

/-- C8 as stated fails: a scan error after one row has been read leaves that
row in the applied list returned by `readMetadata`, and the file of that row is
not treated as pending by `migrateDB`. -/
theorem readMetadata_errors_counterexample :
    (readMetadata sysScanFails ()).1 = ["001_a.sql"] ∧
    (readMetadata sysScanFails ()).1 ≠ [] ∧
    (migrateDB sysScanFails "Create-Database" devConfig ()).migrations = ["001_a.sql"] ∧
    (migrateDB sysScanFails "Create-Database" devConfig ()).files =
      ["db/migrate/001_a.sql", "db/migrate/002_b.sql"] ∧
    (migrateDB sysScanFails "Create-Database" devConfig ()).executed =
      [["-d", "freska_development", "-f", "db/migrate/002_b.sql"]] := by
  decide

/-- C8, amended.  When the query of `readMetadata` fails, the applied list it
returns is empty and every file is pending.  When scanning fails at a row, the
applied list returned is exactly the rows read before that row, and the pending
files are those whose base name is not among them.  When no row fails, all rows
are returned. -/
theorem readMetadata_errors {σ : Type} (sys : Sys σ) (w : σ) :
    (∀ e, (sys.queryQuerySQL selectSQL w).1 = Except.error e →
      (readMetadata sys w).1 = [] ∧ ∀ files, pending files (readMetadata sys w).1 = files) ∧
    (∀ pre e post,
      (sys.queryQuerySQL selectSQL w).1 = Except.ok (pre.map Except.ok ++ Except.error e :: post) →
      (readMetadata sys w).1 = pre ∧
      ∀ files, pending files (readMetadata sys w).1 =
        files.filter (fun f => !contains (Base f) pre)) ∧
    (∀ rows, (sys.queryQuerySQL selectSQL w).1 = Except.ok (rows.map Except.ok) →
      (readMetadata sys w).1 = rows) := by
  rcases hq : sys.queryQuerySQL selectSQL w with ⟨q, w1⟩
  refine ⟨?_, ?_, ?_⟩
  · intro e he
    simp only at he
    subst he
    have h0 : (readMetadata sys w).1 = [] := by simp [readMetadata, hq]
    exact ⟨h0, fun files => by rw [h0, pending_nil]⟩
  · intro pre e post he
    simp only at he
    subst he
    have h0 : (readMetadata sys w).1 = pre := by
      simp [readMetadata, hq, scanRows_ok, scanRows]
    exact ⟨h0, fun files => by rw [h0]; rfl⟩
  · intro rows he
    simp only at he
    subst he
    have := scanRows_ok rows [] []
    simp only [List.append_nil, List.nil_append, scanRows] at this
    simp [readMetadata, hq, this]

/-- C8, amended, at concrete ledger reads: a failing query, and a scan that
fails at the second row. -/
theorem readMetadata_errors_witness :
    (readMetadata (scripted (Except.ok []) none (Except.error "pq: connection refused")
      (fun _ => ("", none)) (fun _ => none)) ()).1 = [] ∧
    (readMetadata sysScanFails ()).1 = ["001_a.sql"] :=
  ⟨((readMetadata_errors (scripted (Except.ok []) none (Except.error "pq: connection refused")
      (fun _ => ("", none)) (fun _ => none)) ()).1 "pq: connection refused" rfl).1,
   ((readMetadata_errors sysScanFails ()).2.1 ["001_a.sql"]
      "sql: Scan error on column index 0" [] rfl).1⟩

/-- C9: ledger write.  Whatever the inserts return, `writeMetadata` makes
exactly one `ExecSQL` call per name, in the order of the names: the call at
position `i` is the oracle call for the name at position `i`, with the insert
statement (whose status value is the literal 100) and the arguments tool
version and name, made in the world that the inserts for the names before it
left, whether they failed or not; the error recorded for it is the one that
oracle call returned, and the world `writeMetadata` returns is the one left by
the insert for the last name. -/
theorem writeMetadata_one_insert_per_name {σ : Type} (sys : Sys σ) (names : List String)
    (w : σ) :
    (writeMetadata sys names w).1.length = names.length ∧
    (writeMetadata sys names w).1.map (fun c => (c.sql, c.args)) =
      names.map (fun m =>
        ("Insert into freska_metadata(updated_at,freska_version,migration_version,status) VALUES(NOW(),$1,$2,100);",
          ["1.5.4", m])) ∧
    (∀ i m, names[i]? = some m →
      (writeMetadata sys names w).1[i]? =
        some (ExecRecord.mk
          "Insert into freska_metadata(updated_at,freska_version,migration_version,status) VALUES(NOW(),$1,$2,100);"
          ["1.5.4", m]
          (sys.queryExecSQL
            "Insert into freska_metadata(updated_at,freska_version,migration_version,status) VALUES(NOW(),$1,$2,100);"
            ["1.5.4", m]
            ((names.take i).foldl
              (fun w1 n => (sys.queryExecSQL
                "Insert into freska_metadata(updated_at,freska_version,migration_version,status) VALUES(NOW(),$1,$2,100);"
                ["1.5.4", n] w1).2) w)).1)) ∧
    (writeMetadata sys names w).2 =
      names.foldl
        (fun w1 n => (sys.queryExecSQL
          "Insert into freska_metadata(updated_at,freska_version,migration_version,status) VALUES(NOW(),$1,$2,100);"
          ["1.5.4", n] w1).2) w := by
  have h := writeMetadata_calls sys names w
  refine ⟨?_, h, ?_, writeMetadata_world sys names w⟩
  · have := congrArg List.length h
    simpa using this
  · intro i m hm
    exact writeMetadata_getElem sys names w i m hm

/-- C9 at a concrete write: of the inserts for 001_a.sql and 002_b.sql the
first fails; both are attempted, in order, the first records its error, the
second succeeds, and the table ends with the row of 002_b.sql alone. -/
theorem writeMetadata_one_insert_per_name_witness :
    (writeMetadata firstInsertFails ["001_a.sql", "002_b.sql"] worldFresh).1 =
      [⟨insertSQL, ["1.5.4", "001_a.sql"], some "pq: deadlock detected"⟩,
       ⟨insertSQL, ["1.5.4", "002_b.sql"], none⟩] ∧
    (writeMetadata firstInsertFails ["001_a.sql", "002_b.sql"] worldFresh).2.ledger =
      [⟨"1.5.4", "002_b.sql", 100⟩] ∧
    (writeMetadata firstInsertFails ["001_a.sql", "002_b.sql"] worldFresh).1[1]? =
      some ⟨insertSQL, ["1.5.4", "002_b.sql"], none⟩ :=
  ⟨by decide, by decide,
    ((writeMetadata_one_insert_per_name firstInsertFails ["001_a.sql", "002_b.sql"]
      worldFresh).2.2.1 1 "002_b.sql" rfl).trans (by decide)⟩

/-- C10, the code at the failing input: the last migration recorded as run is
002_b.sql, no file sorts after it, and yet `migrateDB` executes 001_a.sql,
which sorts before it, and records it. -/
theorem migrateDB_runs_file_before_last_applied :
    (migrateDB healthy "Create-Database" devConfig worldGap).migrations = ["002_b.sql"] ∧
    (migrateDB healthy "Create-Database" devConfig worldGap).files =
      ["db/migrate/001_a.sql", "db/migrate/002_b.sql"] ∧
    stringLess "001_a.sql" "002_b.sql" = true ∧
    (migrateDB healthy "Create-Database" devConfig worldGap).executed =
      [["-d", "freska_development", "-f", "db/migrate/001_a.sql"]] ∧
    (migrateDB healthy "Create-Database" devConfig worldGap).completed = ["001_a.sql"] ∧
    (migrateDB healthy "Create-Database" devConfig worldGap).world.ledger =
      [⟨"1.5.4", "002_b.sql", 100⟩, ⟨"1.5.4", "001_a.sql", 100⟩] := by
  decide

end Freska
